import Mathlib

/-!
Verification development for the GitHub issues analyzer
(`src/issue-analyzer/github-issues-analyzer.py`).

The Python source is shallowly embedded:

* Python `datetime` values (UTC, second precision) become the `DateTime`
  structure; `datetime.strptime(s, "%Y-%m-%dT%H:%M:%SZ")` becomes `strptime`
  (returning `none` where Python raises `ValueError`).  Python compares
  `datetime`s field-lexicographically, which for valid dates coincides with
  comparing `DateTime.toSeconds`; `(b - a).days` is the floor of the second
  difference divided by 86400, embedded as `daysBetween`.
* raw GitHub issue records become `RawIssue`.  Fields the code accesses with
  `issue[...]` (always present on real records) are plain fields; fields read
  with `.get` (`closed_at`, `labels`, `assignees`) keep their optional /
  defaulted character.  `'pull_request' in issue` becomes the Boolean field
  `pull_request`.
* `get_closed_issues` becomes `fetchLoop` / `get_closed_issues`, driven by a
  list of synthetic page responses; the returned pair carries the accepted
  issues and the number of page requests issued.  A Python exception escaping
  the function (e.g. `strptime` on a malformed timestamp) is the `none`
  result.
* `analyze_issues` becomes `analyzeLoop` / `analyze_issues`; the `defaultdict`
  / `Counter` tallies become insertion-ordered association lists updated by
  `incr`.
* the CSV / JSON exporters become `csvRowOf` / `export_json_report`.

`strptime` here accepts exactly the fixed-width wire format
`YYYY-MM-DDTHH:MM:SSZ` (with field range checks, as `datetime` validates
them); Python's `_strptime` additionally tolerates non-zero-padded numeric
fields, which no claim depends on.
-/

/-- A UTC timestamp at second precision, as carried by Python `datetime`
in this program (no timezone, no microseconds). -/
structure DateTime where
  year : Nat
  month : Nat
  day : Nat
  hour : Nat
  minute : Nat
  second : Nat
deriving Repr, DecidableEq

/-- Gregorian leap-year test, as `calendar.isleap` / `datetime` use it. -/
def isLeap (y : Nat) : Bool :=
  (y % 4 == 0 && y % 100 != 0) || y % 400 == 0

/-- Number of days in month `m` of year `y` (1-based months). -/
def daysInMonth (y m : Nat) : Nat :=
  if m = 2 then (if isLeap y then 29 else 28)
  else if m = 4 ∨ m = 6 ∨ m = 9 ∨ m = 11 then 30
  else 31

/-- Days in all years strictly before year `y` (proleptic Gregorian),
as in `datetime.toordinal`. -/
def daysBeforeYear (y : Nat) : Nat :=
  365 * (y - 1) + (y - 1) / 4 - (y - 1) / 100 + (y - 1) / 400

/-- Days in the months of year `y` strictly before month `m`. -/
def daysBeforeMonth (y m : Nat) : Nat :=
  (List.range (m - 1)).foldl (fun acc i => acc + daysInMonth y (i + 1)) 0

/-- Python `date.toordinal`: day 1 is 0001-01-01. -/
def dateOrdinal (y m d : Nat) : Nat :=
  daysBeforeYear y + daysBeforeMonth y m + d

/-- Seconds since 0001-01-01T00:00:00; linearizes Python's
field-lexicographic `datetime` comparison for valid dates. -/
def DateTime.toSeconds (t : DateTime) : Int :=
  ((dateOrdinal t.year t.month t.day : Int) - 1) * 86400
    + t.hour * 3600 + t.minute * 60 + t.second

/-- Embeds `(closed - created).days`: Python `timedelta` normalizes so that `.days`
is the floor of the total seconds divided by 86400. -/
def daysBetween (created closed : DateTime) : Int :=
  Int.fdiv (closed.toSeconds - created.toSeconds) 86400

/-- Value of a decimal digit character. -/
def digitVal (c : Char) : Option Nat :=
  if c.isDigit then some (c.toNat - 48) else none

/-- Two decimal digits. -/
def twoDigits (a b : Char) : Option Nat :=
  match digitVal a, digitVal b with
  | some x, some y => some (10 * x + y)
  | _, _ => none

/-- Four decimal digits. -/
def fourDigits (a b c d : Char) : Option Nat :=
  match twoDigits a b, twoDigits c d with
  | some x, some y => some (100 * x + y)
  | _, _ => none

/-- Embeds `datetime.strptime(s, "%Y-%m-%dT%H:%M:%SZ")`: `none` models the
`ValueError` Python raises on a string not in the wire format (including
the `datetime` constructor's range checks). -/
def strptime (s : String) : Option DateTime :=
  match s.data with
  | [y1, y2, y3, y4, s1, o1, o2, s2, d1, d2, s3, h1, h2, s4, n1, n2, s5, e1, e2, s6] =>
    if (s1, s2, s3, s4, s5, s6) = ('-', '-', 'T', ':', ':', 'Z') then
      match fourDigits y1 y2 y3 y4, twoDigits o1 o2, twoDigits d1 d2,
            twoDigits h1 h2, twoDigits n1 n2, twoDigits e1 e2 with
      | some y, some mo, some da, some ho, some mi, some se =>
        if 1 ≤ y ∧ 1 ≤ mo ∧ mo ≤ 12 ∧ 1 ≤ da ∧ da ≤ daysInMonth y mo
            ∧ ho ≤ 23 ∧ mi ≤ 59 ∧ se ≤ 59 then
          some ⟨y, mo, da, ho, mi, se⟩
        else none
      | _, _, _, _, _, _ => none
    else none
  | _ => none

/-- Zero-pad to two digits (`%m`, `%U`, ...). -/
def pad2 (n : Nat) : String :=
  if n < 10 then "0" ++ toString n else toString n

/-- Zero-pad to four digits (`%Y`). -/
def pad4 (n : Nat) : String :=
  if n < 10 then "000" ++ toString n
  else if n < 100 then "00" ++ toString n
  else if n < 1000 then "0" ++ toString n
  else toString n

/-- Embeds `closed_at.strftime("%Y-%m")`. -/
def monthKey (t : DateTime) : String :=
  pad4 t.year ++ "-" ++ pad2 t.month

/-- Week number `%U`: week of the year with Sunday as first day; days before the first
Sunday are week 0. -/
def weekU (t : DateTime) : Nat :=
  let ord := dateOrdinal t.year t.month t.day
  let yday0 := ord - dateOrdinal t.year 1 1
  let wday := ord % 7
  (yday0 + 7 - wday) / 7

/-- Embeds `closed_at.strftime("%Y-W%U")`. -/
def weekKey (t : DateTime) : String :=
  pad4 t.year ++ "-W" ++ pad2 (weekU t)

/-- One raw issue record of a GitHub API page, restricted to the fields the
analyzer reads.  `pull_request` embeds `'pull_request' in issue`;
`closed_at` is `issue.get('closed_at')` (with `none` for an absent or
JSON-null field); `labels` and `assignees` are already projected to their
`name` / `login` strings. -/
structure RawIssue where
  pull_request : Bool
  state : String
  number : Nat
  title : String
  user_login : String
  assignees : List String
  labels : List String
  created_at : String
  closed_at : Option String
  html_url : String
deriving Repr, DecidableEq

/-- One HTTP response of the paginated listing endpoint. -/
structure PageResponse where
  status : Nat
  body : List RawIssue
deriving Repr, DecidableEq

/-- The per-record filter of the fetch loop body (lines 94-108): skip pull
requests, skip records with a falsy `closed_at` (absent, `None`, or the
empty string), parse the timestamp (`none` = the `ValueError` Python
raises), and accept records inside the date window.
`some none` = record skipped, `some (some i)` = record accepted. -/
def filterRecord (since : DateTime) (untl : Option DateTime) (i : RawIssue) :
    Option (Option RawIssue) :=
  if i.pull_request then some none
  else
    match i.closed_at with
    | none => some none
    | some s =>
      if s = "" then some none
      else
        match strptime s with
        | none => none
        | some d =>
          if since.toSeconds ≤ d.toSeconds then
            match untl with
            | none => some (some i)
            | some u => if d.toSeconds ≤ u.toSeconds then some (some i) else some none
          else some none

/-- The record filter applied over one page, in order, collecting the
accepted records; `none` when some record makes `strptime` raise. -/
def filterPage (since : DateTime) (untl : Option DateTime) :
    List RawIssue → Option (List RawIssue)
  | [] => some []
  | i :: rest =>
    match filterRecord since untl i with
    | none => none
    | some oi =>
      match filterPage since untl rest with
      | none => none
      | some l =>
        match oi with
        | none => some l
        | some x => some (x :: l)

/-- The early-termination check (lines 112-118): look at the *last* record
of the page; if its `closed_at` is falsy the check is skipped, otherwise
parse it (`none` = raise) and stop when it is strictly before `since`. -/
def stopAfterPage (since : DateTime) (body : List RawIssue) : Option Bool :=
  match body.getLast? with
  | none => some false
  | some last =>
    match last.closed_at with
    | none => some false
    | some s =>
      if s = "" then some false
      else
        match strptime s with
        | none => none
        | some d => some (decide (d.toSeconds < since.toSeconds))

/-- The `while True` pagination loop of `get_closed_issues`, driven by the
synthetic page responses: requesting a page past the provided list yields
the empty page a real server would return.  `acc` is the accumulated
accepted issues, `n` the number of page requests issued so far; the result
pairs the returned issue list with the total number of page requests, and
is `none` when the Python code raises. -/
def fetchLoop (since : DateTime) (untl : Option DateTime) :
    List PageResponse → List RawIssue → Nat → Option (List RawIssue × Nat)
  | [], acc, n => some (acc, n + 1)
  | p :: rest, acc, n =>
    if p.status ≠ 200 then some (acc, n + 1)
    else if p.body.isEmpty then some (acc, n + 1)
    else
      match filterPage since untl p.body with
      | none => none
      | some accepted =>
        match stopAfterPage since p.body with
        | none => none
        | some true => some (acc ++ accepted, n + 1)
        | some false => fetchLoop since untl rest (acc ++ accepted) (n + 1)

/-- Embeds `get_closed_issues(since_date, until_date, ...)` over a synthetic server. -/
def get_closed_issues (since : DateTime) (untl : Option DateTime)
    (pages : List PageResponse) : Option (List RawIssue × Nat) :=
  fetchLoop since untl pages [] 0

/-- The issues one page contributes to the result (its body put through the
record filter). -/
def acceptedOf (since : DateTime) (untl : Option DateTime) (p : PageResponse) :
    List RawIssue :=
  (filterPage since untl p.body).getD []

/-- Increment the tally for key `k` in an insertion-ordered association
list, as `defaultdict(int)` / `Counter` do: bump the first entry with that
key, or append a fresh entry with count 1. -/
def incr {K : Type} [DecidableEq K] : List (K × Nat) → K → List (K × Nat)
  | [], k => [(k, 1)]
  | (a, n) :: rest, k =>
    if a = k then (a, n + 1) :: rest else (a, n) :: incr rest k

/-- Embeds `sum(m.values())`. -/
def sumVals {K : Type} (m : List (K × Nat)) : Nat :=
  (m.map Prod.snd).sum

/-- Embeds `m[k]` with default 0 (first entry wins, as in a Python dict where keys
are unique). -/
def lookupCount {K : Type} [DecidableEq K] : List (K × Nat) → K → Nat
  | [], _ => 0
  | (a, n) :: rest, k => if a = k then n else lookupCount rest k

/-- Code-point lexicographic comparison of character lists — the order
Python uses on `str`.  (Lean's `String` order is the same relation; this
explicit recursion is used so that terms evaluate.) -/
def charListLt : List Char → List Char → Bool
  | [], [] => false
  | [], _ :: _ => true
  | _ :: _, [] => false
  | a :: as, b :: bs =>
    if a.toNat < b.toNat then true
    else if b.toNat < a.toNat then false
    else charListLt as bs

/-- Strict `a < b` on strings, code-point lexicographic. -/
def strLt (a b : String) : Bool :=
  charListLt a.data b.data

/-- Insert into a sorted list of strings (code-point order, as Python
compares `str`). -/
def insertStr (a : String) : List String → List String
  | [] => [a]
  | b :: l => if strLt b a then b :: insertStr a l else a :: b :: l

/-- Python `sorted` on a list of strings (ascending insertion sort). -/
def sortStrings (l : List String) : List String :=
  l.foldr insertStr []

/-- Monadic map over `Option`, written as plain recursion: all elements must
succeed, results kept in order. -/
def mapO {α β : Type} (f : α → Option β) : List α → Option (List β)
  | [] => some []
  | a :: l =>
    match f a, mapO f l with
    | some b, some bs => some (b :: bs)
    | _, _ => none

/-- One entry of `analysis['issues_detail']` (lines 182-193). -/
structure IssueDetail where
  number : Nat
  title : String
  author : String
  assignees : List String
  labels : List String
  created_at : String
  closed_at : String
  days_to_close : Int
  url : String
  state : String
deriving Repr, DecidableEq

/-- Embeds `(closed_at - created_at).days` for one issue, as `analyze_issues`
computes it; `none` where the Python loop raises (missing `closed_at`
passed to `strptime`, or a malformed timestamp). -/
def issueDays (i : RawIssue) : Option Int :=
  match i.closed_at with
  | none => none
  | some zs =>
    match strptime i.created_at, strptime zs with
    | some c, some z => some (daysBetween c z)
    | _, _ => none

/-- The `issues_detail` entry `analyze_issues` appends for one issue. -/
def mkDetail (i : RawIssue) : Option IssueDetail :=
  match i.closed_at with
  | none => none
  | some zs =>
    match strptime i.created_at, strptime zs with
    | some c, some z =>
      some { number := i.number, title := i.title, author := i.user_login,
             assignees := i.assignees, labels := i.labels,
             created_at := i.created_at, closed_at := zs,
             days_to_close := daysBetween c z, url := i.html_url,
             state := i.state }
    | _, _ => none

/-- The mutable state of the `analyze_issues` loop: the tally maps,
`total_days`, and the growing `issues_detail` list. -/
structure AState where
  by_label : List (String × Nat)
  by_assignee : List (String × Nat)
  by_author : List (String × Nat)
  by_month : List (String × Nat)
  by_week : List (String × Nat)
  labels_combinations : List (List String × Nat)
  total_days : Int
  details : List IssueDetail
deriving Repr, DecidableEq

/-- One iteration of the `analyze_issues` loop (lines 146-193): parse the
two timestamps (`none` = the loop raises), then update every tally and
append the detail record. -/
def processIssue (st : AState) (i : RawIssue) : Option AState :=
  match i.closed_at with
  | none => none
  | some zs =>
    match strptime i.created_at, strptime zs with
    | some c, some z =>
      some { by_label := i.labels.foldl incr st.by_label
             by_assignee :=
               if i.assignees.isEmpty then incr st.by_assignee "unassigned"
               else i.assignees.foldl incr st.by_assignee
             by_author := incr st.by_author i.user_login
             by_month := incr st.by_month (monthKey z)
             by_week := incr st.by_week (weekKey z)
             labels_combinations :=
               if i.labels.isEmpty then st.labels_combinations
               else incr st.labels_combinations (sortStrings i.labels)
             total_days := st.total_days + daysBetween c z
             details := st.details ++
               [{ number := i.number, title := i.title, author := i.user_login,
                  assignees := i.assignees, labels := i.labels,
                  created_at := i.created_at, closed_at := zs,
                  days_to_close := daysBetween c z, url := i.html_url,
                  state := i.state }] }
    | _, _ => none

/-- The `for issue in issues` loop of `analyze_issues`. -/
def analyzeLoop (st : AState) : List RawIssue → Option AState
  | [] => some st
  | i :: rest =>
    match processIssue st i with
    | none => none
    | some st2 => analyzeLoop st2 rest

/-- The state `analyze_issues` starts from. -/
def initState : AState :=
  { by_label := [], by_assignee := [], by_author := [], by_month := [],
    by_week := [], labels_combinations := [], total_days := 0, details := [] }

/-- Round a rational to the nearest integer, ties to even — the behaviour
of Python `round` modelled over exact rationals.  (Python rounds binary
doubles, so an input within double-precision error of a tie boundary may
round differently there; no claim depends on such inputs.) -/
def roundHalfEven (q : ℚ) : ℤ :=
  let n := ⌊q⌋
  let r := q - (n : ℚ)
  if r < 1 / 2 then n
  else if 1 / 2 < r then n + 1
  else if n % 2 = 0 then n else n + 1

/-- Embeds `round(x, 2)` over exact rationals. -/
def pyRound2 (q : ℚ) : ℚ :=
  (roundHalfEven (q * 100) : ℚ) / 100

/-- The analysis record `analyze_issues` returns (lines 132-142 set up the
container, line 196-197 fill in the average). -/
structure AnalysisResult where
  total_count : Nat
  by_label : List (String × Nat)
  by_assignee : List (String × Nat)
  by_author : List (String × Nat)
  by_month : List (String × Nat)
  by_week : List (String × Nat)
  labels_combinations : List (List String × Nat)
  avg_days_to_close : ℚ
  issues_detail : List IssueDetail
deriving Repr, DecidableEq

instance : Inhabited AnalysisResult :=
  ⟨{ total_count := 0, by_label := [], by_assignee := [], by_author := [],
     by_month := [], by_week := [], labels_combinations := [],
     avg_days_to_close := 0, issues_detail := [] }⟩

/-- Embeds `analyze_issues(issues)`: run the loop, then
`avg_days_to_close = round(total_days / len(issues), 2)` when the list is
non-empty, else the initial `0`.  `none` models an exception escaping the
Python function. -/
def analyze_issues (issues : List RawIssue) : Option AnalysisResult :=
  match analyzeLoop initState issues with
  | none => none
  | some st =>
    some { total_count := issues.length
           by_label := st.by_label
           by_assignee := st.by_assignee
           by_author := st.by_author
           by_month := st.by_month
           by_week := st.by_week
           labels_combinations := st.labels_combinations
           avg_days_to_close :=
             if 0 < issues.length then
               pyRound2 ((st.total_days : ℚ) / (issues.length : ℚ))
             else 0
           issues_detail := st.details }

/-- One CSV data row as `_export_csv_report` builds it (lines 278-283):
the detail entry with `assignees` and `labels` flattened by
`'; '.join(...)`. -/
structure CsvRow where
  number : Nat
  title : String
  author : String
  assignees : String
  labels : String
  created_at : String
  closed_at : String
  days_to_close : Int
  url : String
  state : String
deriving Repr, DecidableEq

/-- Embeds `row = issue.copy(); row['assignees'] = '; '.join(...); ...` for one
`issues_detail` entry. -/
def csvRowOf (d : IssueDetail) : CsvRow :=
  { number := d.number, title := d.title, author := d.author,
    assignees := String.intercalate "; " d.assignees,
    labels := String.intercalate "; " d.labels,
    created_at := d.created_at, closed_at := d.closed_at,
    days_to_close := d.days_to_close, url := d.url, state := d.state }

/-- The data rows `_export_csv_report` writes, one per `issues_detail`
entry, in order. -/
def export_csv_rows (a : AnalysisResult) : List CsvRow :=
  a.issues_detail.map csvRowOf

/-- The JSON document `_export_json_report` assembles (lines 294-310),
minus the run-dependent `generated_at` / repository strings, which no
claim mentions. -/
structure JsonReport where
  total_issues : Nat
  avg_days_to_close : ℚ
  by_label : List (String × Nat)
  by_assignee : List (String × Nat)
  by_author : List (String × Nat)
  by_month : List (String × Nat)
  by_week : List (String × Nat)
  labels_combinations : List (List String × Nat)
  issues : List IssueDetail
deriving Repr, DecidableEq

/-- Embeds `_export_json_report`: build `report_data` and pass it to `json.dump`.
`json.dump` requires every dict key to be `str`, `int`, `float`, `bool`
or `None`; the keys of `labels_combinations` are tuples, so serialization
raises `TypeError` as soon as that map has any entry (modelled as
`Except.error`); every other key in `report_data` is a string, so a
document with an empty combination map serializes fine. -/
def export_json_report (a : AnalysisResult) : Except String JsonReport :=
  if a.labels_combinations.isEmpty then
    .ok { total_issues := a.total_count,
          avg_days_to_close := a.avg_days_to_close,
          by_label := a.by_label, by_assignee := a.by_assignee,
          by_author := a.by_author, by_month := a.by_month,
          by_week := a.by_week,
          labels_combinations := a.labels_combinations,
          issues := a.issues_detail }
  else
    .error "TypeError: keys must be str, int, float, bool or None, not tuple"

/-! ### Concrete fixtures used by counterexamples and witnesses -/

/-- The `since` bound 2024-01-01T00:00:00Z. -/
def dtSince : DateTime := ⟨2024, 1, 1, 0, 0, 0⟩

/-- A well-formed closed issue: no labels, no assignees. -/
def issueNoLabels : RawIssue :=
  { pull_request := false, state := "closed", number := 1,
    title := "first", user_login := "alice", assignees := [],
    labels := [], created_at := "2024-01-01T00:00:00Z",
    closed_at := some "2024-01-02T00:00:00Z", html_url := "u1" }

/-- A well-formed closed issue: labels `ui, bug` (unsorted), assignees
`alice, bob`. -/
def issueLabelled : RawIssue :=
  { pull_request := false, state := "closed", number := 2,
    title := "second", user_login := "bob", assignees := ["alice", "bob"],
    labels := ["ui", "bug"], created_at := "2024-01-01T00:00:00Z",
    closed_at := some "2024-01-04T12:00:00Z", html_url := "u2" }

/-- A record in state `open` but carrying a closing timestamp — nothing in
the fetch loop rejects it. -/
def issueOpenState : RawIssue :=
  { pull_request := false, state := "open", number := 3,
    title := "third", user_login := "carol", assignees := [],
    labels := [], created_at := "2024-01-01T00:00:00Z",
    closed_at := some "2024-01-02T00:00:00Z", html_url := "u3" }

/-- A closed-state record whose closing timestamp is a non-empty string not
in the wire format. -/
def issueBadStamp : RawIssue :=
  { pull_request := false, state := "closed", number := 4,
    title := "fourth", user_login := "dan", assignees := [],
    labels := [], created_at := "2024-01-01T00:00:00Z",
    closed_at := some "garbage", html_url := "u4" }

/-- A closed issue whose closing timestamp is missing. -/
def issueNoStamp : RawIssue :=
  { pull_request := false, state := "closed", number := 5,
    title := "fifth", user_login := "erin", assignees := [],
    labels := [], created_at := "2024-01-01T00:00:00Z",
    closed_at := none, html_url := "u5" }

/-- A closed issue whose closing timestamp is strictly before `dtSince`. -/
def issueOld : RawIssue :=
  { pull_request := false, state := "closed", number := 6,
    title := "sixth", user_login := "fred", assignees := [],
    labels := [], created_at := "2023-12-01T00:00:00Z",
    closed_at := some "2023-12-05T00:00:00Z", html_url := "u6" }

/-- The analysis of `[issueNoLabels, issueLabelled]`. -/
def aPair : AnalysisResult :=
  (analyze_issues [issueNoLabels, issueLabelled]).getD default

/-- The analysis of the single label-free issue. -/
def aEmptyCombos : AnalysisResult :=
  (analyze_issues [issueNoLabels]).getD default

/-! ### Helper predicates and lemmas about the fetch loop -/

/-- The record's `closed_at` cannot make `strptime` raise: it is falsy
(absent / `None` / empty) or parses. -/
def closedOk (r : RawIssue) : Prop :=
  r.closed_at = none ∨ r.closed_at = some "" ∨
    ∃ s d, r.closed_at = some s ∧ strptime s = some d

/-- The record cannot make the per-record filter raise (pull requests are
skipped before their timestamp is touched). -/
def recordOk (r : RawIssue) : Prop :=
  r.pull_request = true ∨ closedOk r

/-- No record of the page makes the loop body raise, including the last
record as read by the early-termination check (which parses it even when
it is a pull request). -/
def pageWellFormed (p : PageResponse) : Prop :=
  (∀ r ∈ p.body, recordOk r) ∧
    ∀ last, p.body.getLast? = some last → closedOk last

/-- A page the loop passes through without stopping: success status,
non-empty body, no raise while filtering, and an early-termination check
that comes out false. -/
def contPage (since : DateTime) (untl : Option DateTime) (p : PageResponse) : Prop :=
  p.status = 200 ∧ p.body ≠ [] ∧ (filterPage since untl p.body).isSome ∧
    stopAfterPage since p.body = some false

lemma filterRecord_accept (since : DateTime) (untl : Option DateTime)
    (i x : RawIssue) (h : filterRecord since untl i = some (some x)) :
    x = i ∧ i.pull_request = false ∧ ∃ s d, i.closed_at = some s ∧ s ≠ "" ∧
      strptime s = some d ∧ since.toSeconds ≤ d.toSeconds ∧
      ∀ u, untl = some u → d.toSeconds ≤ u.toSeconds := by
  unfold filterRecord at h
  split at h
  · simp at h
  next hp =>
    rw [Bool.not_eq_true] at hp
    split at h
    · simp at h
    next s hs =>
      split at h
      · simp at h
      next hse =>
        split at h
        · simp at h
        next d hd =>
          split at h
          next hle =>
            refine ?_
            have hx : x = i ∧ ∀ u, untl = some u → d.toSeconds ≤ u.toSeconds := by
              cases untl with
              | none =>
                simp only [] at h
                exact ⟨by simpa using h.symm, by intro u hu; cases hu⟩
              | some u =>
                simp only [] at h
                split at h
                next hub => exact ⟨by simpa using h.symm, by intro v hv; cases hv; exact hub⟩
                next => simp at h
            exact ⟨hx.1, hp, s, d, hs, hse, hd, hle, hx.2⟩
          next => simp at h

lemma filterPage_sound (since : DateTime) (untl : Option DateTime) :
    ∀ body l, filterPage since untl body = some l →
      ∀ x ∈ l, x ∈ body ∧ filterRecord since untl x = some (some x)
  | [], l, h => by
    simp only [filterPage] at h
    cases h
    intro x hx
    simp at hx
  | i :: rest, l, h => by
    simp only [filterPage] at h
    cases hr : filterRecord since untl i with
    | none => rw [hr] at h; cases h
    | some oi =>
      rw [hr] at h
      cases hrest : filterPage since untl rest with
      | none => rw [hrest] at h; cases h
      | some l' =>
        rw [hrest] at h
        cases oi with
        | none =>
          injection h with h2
          subst h2
          intro x hx
          obtain ⟨hmem, hacc⟩ := filterPage_sound since untl rest l' hrest x hx
          exact ⟨List.mem_cons_of_mem _ hmem, hacc⟩
        | some y =>
          have hy : y = i := (filterRecord_accept since untl i y hr).1
          injection h with h2
          subst h2
          intro x hx
          rcases List.mem_cons.mp hx with hxy | hxl
          · subst hxy
            subst hy
            exact ⟨List.mem_cons_self _ _, hr⟩
          · obtain ⟨hmem, hacc⟩ := filterPage_sound since untl rest l' hrest x hxl
            exact ⟨List.mem_cons_of_mem _ hmem, hacc⟩

lemma filterRecord_ok (since : DateTime) (untl : Option DateTime)
    (i : RawIssue) (h : recordOk i) : (filterRecord since untl i).isSome := by
  unfold filterRecord
  cases hp : i.pull_request with
  | true => simp
  | false =>
    simp only [Bool.false_eq_true, if_false]
    rcases h with hpr | hno | hemp | ⟨s, d, hs, hd⟩
    · rw [hp] at hpr; cases hpr
    · rw [hno]; simp
    · rw [hemp]; simp
    · rw [hs]
      simp only []
      split
      · simp
      · rw [hd]
        split
        next heq => cases heq
        next dd heq =>
          injection heq with hdd
          subst hdd
          split
          · cases untl with
            | none => simp
            | some u =>
              simp only []
              split <;> simp
          · simp

lemma filterPage_ok (since : DateTime) (untl : Option DateTime) :
    ∀ body, (∀ r ∈ body, recordOk r) → (filterPage since untl body).isSome
  | [], _ => by simp [filterPage]
  | i :: rest, h => by
    simp only [filterPage]
    have hi := filterRecord_ok since untl i (h i (List.mem_cons_self _ _))
    cases hr : filterRecord since untl i with
    | none => rw [hr] at hi; simp at hi
    | some oi =>
      have hrest := filterPage_ok since untl rest
        (fun r hrm => h r (List.mem_cons_of_mem _ hrm))
      cases hr2 : filterPage since untl rest with
      | none => rw [hr2] at hrest; simp at hrest
      | some l => cases oi <;> simp

lemma stopAfterPage_ok (since : DateTime) (body : List RawIssue)
    (h : ∀ last, body.getLast? = some last → closedOk last) :
    (stopAfterPage since body).isSome := by
  unfold stopAfterPage
  cases hl : body.getLast? with
  | none => simp
  | some last =>
    simp only []
    rcases h last hl with hno | hemp | ⟨s, d, hs, hd⟩
    · rw [hno]; simp
    · rw [hemp]; simp
    · rw [hs]
      simp only []
      split
      · simp
      · rw [hd]; simp

lemma fetchLoop_mem (since : DateTime) (untl : Option DateTime) :
    ∀ pages acc n res m, fetchLoop since untl pages acc n = some (res, m) →
      ∀ x ∈ res, x ∈ acc ∨
        (filterRecord since untl x = some (some x) ∧ ∃ p ∈ pages, x ∈ p.body)
  | [], acc, n, res, m, h => by
    simp only [fetchLoop] at h
    injection h with h2
    injection h2 with h3 h4
    subst h3
    intro x hx
    exact Or.inl hx
  | p :: rest, acc, n, res, m, h => by
    simp only [fetchLoop] at h
    split at h
    · injection h with h2
      injection h2 with h3 h4
      subst h3
      intro x hx
      exact Or.inl hx
    · split at h
      · injection h with h2
        injection h2 with h3 h4
        subst h3
        intro x hx
        exact Or.inl hx
      · cases hf : filterPage since untl p.body with
        | none => rw [hf] at h; cases h
        | some accepted =>
          rw [hf] at h
          have hsound := filterPage_sound since untl p.body accepted hf
          cases hs : stopAfterPage since p.body with
          | none => rw [hs] at h; cases h
          | some b =>
            rw [hs] at h
            cases b with
            | true =>
              simp only [] at h
              injection h with h2
              injection h2 with h3 h4
              subst h3
              intro x hx
              rcases List.mem_append.mp hx with hxa | hxp
              · exact Or.inl hxa
              · obtain ⟨hmem, hacc⟩ := hsound x hxp
                exact Or.inr ⟨hacc, p, List.mem_cons_self _ _, hmem⟩
            | false =>
              simp only [] at h
              intro x hx
              rcases fetchLoop_mem since untl rest (acc ++ accepted) (n + 1) res m h x hx with
                hxa | ⟨hacc, q, hq, hmem⟩
              · rcases List.mem_append.mp hxa with hx1 | hx2
                · exact Or.inl hx1
                · obtain ⟨hmem, hacc⟩ := hsound x hx2
                  exact Or.inr ⟨hacc, p, List.mem_cons_self _ _, hmem⟩
              · exact Or.inr ⟨hacc, q, List.mem_cons_of_mem _ hq, hmem⟩

lemma fetchLoop_cont (since : DateTime) (untl : Option DateTime)
    (p : PageResponse) (rest : List PageResponse) (acc : List RawIssue) (n : Nat)
    (h : contPage since untl p) :
    fetchLoop since untl (p :: rest) acc n =
      fetchLoop since untl rest (acc ++ acceptedOf since untl p) (n + 1) := by
  obtain ⟨h200, hne, hfs, hstop⟩ := h
  cases hf : filterPage since untl p.body with
  | none => rw [hf] at hfs; simp at hfs
  | some accepted =>
    have hacc : acceptedOf since untl p = accepted := by
      simp [acceptedOf, hf]
    rw [hacc]
    simp only [fetchLoop]
    rw [if_neg (fun hc => hc h200),
      if_neg (fun hc => hne (List.isEmpty_iff.mp hc)), hf, hstop]

lemma fetchLoop_append_cont (since : DateTime) (untl : Option DateTime) :
    ∀ pre rest acc n, (∀ p ∈ pre, contPage since untl p) →
      fetchLoop since untl (pre ++ rest) acc n =
        fetchLoop since untl rest
          (acc ++ pre.flatMap (fun p => acceptedOf since untl p)) (n + pre.length)
  | [], rest, acc, n, _ => by simp
  | p :: pre, rest, acc, n, h => by
    rw [List.cons_append,
      fetchLoop_cont since untl p (pre ++ rest) acc n (h p (List.mem_cons_self _ _)),
      fetchLoop_append_cont since untl pre rest (acc ++ acceptedOf since untl p) (n + 1)
        (fun q hq => h q (List.mem_cons_of_mem _ hq))]
    simp only [List.flatMap_cons, List.append_assoc, List.length_cons]
    ring_nf

lemma fetchLoop_reqs_lb (since : DateTime) (untl : Option DateTime) :
    ∀ pages acc n res m, fetchLoop since untl pages acc n = some (res, m) →
      n + 1 ≤ m
  | [], acc, n, res, m, h => by
    simp only [fetchLoop] at h
    injection h with h2
    injection h2 with h3 h4
    omega
  | p :: rest, acc, n, res, m, h => by
    simp only [fetchLoop] at h
    split at h
    · injection h with h2
      injection h2 with h3 h4
      omega
    · split at h
      · injection h with h2
        injection h2 with h3 h4
        omega
      · cases hf : filterPage since untl p.body with
        | none => rw [hf] at h; cases h
        | some accepted =>
          rw [hf] at h
          cases hs : stopAfterPage since p.body with
          | none => rw [hs] at h; cases h
          | some b =>
            rw [hs] at h
            cases b with
            | true =>
              simp only [] at h
              injection h with h2
              injection h2 with h3 h4
              omega
            | false =>
              simp only [] at h
              have := fetchLoop_reqs_lb since untl rest (acc ++ accepted) (n + 1) res m h
              omega

lemma fetchLoop_total (since : DateTime) (untl : Option DateTime) :
    ∀ pages acc n, (∀ p ∈ pages, pageWellFormed p) →
      (fetchLoop since untl pages acc n).isSome
  | [], acc, n, _ => by simp [fetchLoop]
  | p :: rest, acc, n, h => by
    have hp := h p (List.mem_cons_self _ _)
    have hfs := filterPage_ok since untl p.body hp.1
    have hss := stopAfterPage_ok since p.body hp.2
    simp only [fetchLoop]
    split
    · simp
    · split
      · simp
      · cases hf : filterPage since untl p.body with
        | none => rw [hf] at hfs; simp at hfs
        | some accepted =>
          cases hs : stopAfterPage since p.body with
          | none => rw [hs] at hss; simp at hss
          | some b =>
            cases b with
            | true => simp
            | false =>
              simp only []
              exact fetchLoop_total since untl rest (acc ++ accepted) (n + 1)
                (fun q hq => h q (List.mem_cons_of_mem _ hq))

/-! ### Helper lemmas about the tally maps -/

lemma sumVals_incr {K : Type} [DecidableEq K] :
    ∀ (m : List (K × Nat)) (k : K), sumVals (incr m k) = sumVals m + 1
  | [], k => by simp [incr, sumVals]
  | (a, n) :: rest, k => by
    simp only [incr]
    split
    · simp [sumVals]
      omega
    · simp only [sumVals, List.map_cons, List.sum_cons] at *
      rw [show ((incr rest k).map Prod.snd).sum = sumVals (incr rest k) from rfl,
        sumVals_incr rest k]
      simp [sumVals]
      omega

lemma lookupCount_incr {K : Type} [DecidableEq K] :
    ∀ (m : List (K × Nat)) (k s : K),
      lookupCount (incr m k) s = lookupCount m s + (if s = k then 1 else 0)
  | [], k, s => by
    by_cases h : s = k
    · subst h; simp [incr, lookupCount]
    · have h2 : ¬k = s := fun hc => h hc.symm
      simp [incr, lookupCount, h, h2]
  | (a, n) :: rest, k, s => by
    by_cases hak : a = k
    · subst hak
      by_cases has : a = s
      · subst has; simp [incr, lookupCount]
      · have h2 : ¬s = a := fun hc => has hc.symm
        simp [incr, lookupCount, has, h2]
    · by_cases has : a = s
      · subst has
        simp [incr, lookupCount, hak]
      · have h2 : ¬s = a := fun hc => has hc.symm
        simp [incr, lookupCount, hak, has, h2, lookupCount_incr rest k s]

lemma sumVals_foldl_incr {K : Type} [DecidableEq K] :
    ∀ (l : List K) (m : List (K × Nat)),
      sumVals (l.foldl incr m) = sumVals m + l.length
  | [], m => by simp
  | k :: l, m => by
    simp only [List.foldl_cons, List.length_cons]
    rw [sumVals_foldl_incr l (incr m k), sumVals_incr]
    omega

lemma processIssue_spec (st st' : AState) (i : RawIssue)
    (h : processIssue st i = some st') :
    ∃ det, mkDetail i = some det ∧
      issueDays i = some det.days_to_close ∧
      st'.details = st.details ++ [det] ∧
      st'.total_days = st.total_days + det.days_to_close ∧
      sumVals st'.by_author = sumVals st.by_author + 1 ∧
      (∀ s, lookupCount st'.by_author s =
        lookupCount st.by_author s + (if s = i.user_login then 1 else 0)) ∧
      sumVals st'.by_month = sumVals st.by_month + 1 ∧
      sumVals st'.by_week = sumVals st.by_week + 1 ∧
      sumVals st'.by_assignee = sumVals st.by_assignee +
        (if i.assignees.isEmpty then 1 else i.assignees.length) ∧
      sumVals st'.labels_combinations = sumVals st.labels_combinations +
        (if i.labels.isEmpty then 0 else 1) ∧
      (∀ key, lookupCount st'.labels_combinations key =
        lookupCount st.labels_combinations key +
          (if i.labels.isEmpty = false ∧ sortStrings i.labels = key then 1 else 0)) := by
  unfold processIssue at h
  cases hzs : i.closed_at with
  | none => rw [hzs] at h; cases h
  | some zs =>
    rw [hzs] at h
    simp only [] at h
    cases hc : strptime i.created_at with
    | none =>
      rw [hc] at h
      cases hz : strptime zs with
      | none => rw [hz] at h; simp at h
      | some z => rw [hz] at h; simp at h
    | some c =>
      rw [hc] at h
      cases hz : strptime zs with
      | none => rw [hz] at h; simp at h
      | some z =>
        rw [hz] at h
        simp only [] at h
        injection h with h2
        subst h2
        have hdet : mkDetail i = some
            ⟨i.number, i.title, i.user_login, i.assignees, i.labels,
              i.created_at, zs, daysBetween c z, i.html_url, i.state⟩ := by
          simp [mkDetail, hzs, hc, hz]
        refine ⟨_, hdet, ?_, rfl, rfl, ?_, ?_, ?_, ?_, ?_, ?_, ?_⟩
        · simp [issueDays, hzs, hc, hz]
        · exact sumVals_incr _ _
        · intro s
          simpa using lookupCount_incr st.by_author i.user_login s
        · exact sumVals_incr _ _
        · exact sumVals_incr _ _
        · by_cases ha : i.assignees.isEmpty
          · simp [ha, sumVals_incr]
          · simp [ha, sumVals_foldl_incr]
        · by_cases hl : i.labels.isEmpty
          · simp [hl]
          · simp [hl, sumVals_incr]
        · intro key
          by_cases hl : i.labels.isEmpty
          · simp [hl]
          · by_cases hkey : sortStrings i.labels = key
            · subst hkey
              simp [hl, lookupCount_incr]
            · have h2 : ¬key = sortStrings i.labels := fun hc2 => hkey hc2.symm
              simp [hl, lookupCount_incr, hkey, h2]

lemma analyzeLoop_spec :
    ∀ (issues : List RawIssue) (st st' : AState),
      analyzeLoop st issues = some st' →
      ∃ ds dets, mapO issueDays issues = some ds ∧
        mapO mkDetail issues = some dets ∧
        st'.details = st.details ++ dets ∧
        st'.total_days = st.total_days + ds.sum ∧
        sumVals st'.by_author = sumVals st.by_author + issues.length ∧
        (∀ s, lookupCount st'.by_author s = lookupCount st.by_author s +
          (issues.filter (fun i => i.user_login = s)).length) ∧
        sumVals st'.by_month = sumVals st.by_month + issues.length ∧
        sumVals st'.by_week = sumVals st.by_week + issues.length ∧
        sumVals st'.by_assignee = sumVals st.by_assignee +
          (issues.map (fun i => if i.assignees.isEmpty then 1 else i.assignees.length)).sum ∧
        sumVals st'.labels_combinations = sumVals st.labels_combinations +
          (issues.filter (fun i => !i.labels.isEmpty)).length ∧
        (∀ key, lookupCount st'.labels_combinations key =
          lookupCount st.labels_combinations key +
            (issues.filter
              (fun i => !i.labels.isEmpty && sortStrings i.labels == key)).length)
  | [], st, st', h => by
    simp only [analyzeLoop] at h
    injection h with h2
    subst h2
    exact ⟨[], [], rfl, rfl, by simp, by simp, by simp, by simp, by simp, by simp,
      by simp, by simp, by simp⟩
  | i :: rest, st, st', h => by
    simp only [analyzeLoop] at h
    cases hp : processIssue st i with
    | none => rw [hp] at h; cases h
    | some st2 =>
      rw [hp] at h
      simp only [] at h
      obtain ⟨det, hdet, hdays, hdetails2, htd2, hau2, haus2, hmo2, hwe2, has2,
        hlc2, hlcs2⟩ := processIssue_spec st st2 i hp
      obtain ⟨ds, dets, hds, hdets, hdetails, htd, hau, haus, hmo, hwe, has,
        hlc, hlcs⟩ := analyzeLoop_spec rest st2 st' h
      refine ⟨det.days_to_close :: ds, det :: dets, ?_, ?_, ?_, ?_, ?_, ?_, ?_,
        ?_, ?_, ?_, ?_⟩
      · simp [mapO, hdays, hds]
      · simp [mapO, hdet, hdets]
      · rw [hdetails, hdetails2]
        simp
      · rw [htd, htd2]
        simp [List.sum_cons]
        ring
      · rw [hau, hau2]
        simp only [List.length_cons]
        omega
      · intro s
        rw [haus s, haus2 s]
        by_cases hlogin : i.user_login = s
        · simp only [List.filter_cons]
          simp [hlogin]
          omega
        · have h2 : ¬s = i.user_login := fun hc => hlogin hc.symm
          simp only [List.filter_cons]
          simp [hlogin, h2]
      · rw [hmo, hmo2]
        simp only [List.length_cons]
        omega
      · rw [hwe, hwe2]
        simp only [List.length_cons]
        omega
      · rw [has, has2]
        simp only [List.map_cons, List.sum_cons]
        omega
      · rw [hlc, hlc2]
        simp only [List.filter_cons]
        by_cases hl : i.labels.isEmpty
        · simp [hl]
        · simp [hl]
          omega
      · intro key
        rw [hlcs key, hlcs2 key]
        simp only [List.filter_cons]
        by_cases hl : i.labels.isEmpty
        · simp [hl]
        · by_cases hkey : sortStrings i.labels = key
          · simp [hl, hkey]
            omega
          · simp [hl, hkey]

/-! ### Claim theorems: the fetch loop -/

/-- C3 (counterexample): the fetch does not check `state` client-side.  A
page record in state `"open"` that carries a closing timestamp inside the
window is returned as-is, so "each returned issue has state closed" fails
for arbitrary page responses. -/
theorem C3_counterexample :
    get_closed_issues dtSince none [⟨200, [issueOpenState]⟩] =
      some ([issueOpenState], 2) ∧ issueOpenState.state ≠ "closed" :=
  ⟨by rfl, by decide⟩

/-- C3 (amended): every issue returned by the fetch carries no
`pull_request` marker and has a parseable closing timestamp with
`since <= closed_at` and `closed_at <= until` when `until` is given; the
`state` clause holds under the extra assumption that every record the
server delivers has state `"closed"` (the `state` filter is delegated to
the server and never re-checked client-side). -/
theorem C3_amended_filter (since : DateTime) (untl : Option DateTime)
    (pages : List PageResponse) (res : List RawIssue) (m : Nat)
    (hstate : ∀ p ∈ pages, ∀ r ∈ p.body, r.state = "closed")
    (h : get_closed_issues since untl pages = some (res, m)) :
    ∀ i ∈ res, i.state = "closed" ∧ i.pull_request = false ∧
      ∃ s d, i.closed_at = some s ∧ strptime s = some d ∧
        since.toSeconds ≤ d.toSeconds ∧
        ∀ u, untl = some u → d.toSeconds ≤ u.toSeconds := by
  intro i hi
  rcases fetchLoop_mem since untl pages [] 0 res m h i hi with
    hacc | ⟨hfr, p, hp, hmem⟩
  · simp at hacc
  · obtain ⟨_, hpr, s, d, hs, _, hd, hle, hub⟩ :=
      filterRecord_accept since untl i i hfr
    exact ⟨hstate p hp i hmem, hpr, s, d, hs, hd, hle, hub⟩

/-- Witness for `C3_amended_filter` at a concrete run. -/
theorem C3_amended_filter_witness :
    issueNoLabels.state = "closed" ∧ issueNoLabels.pull_request = false ∧
      ∃ s d, issueNoLabels.closed_at = some s ∧ strptime s = some d ∧
        dtSince.toSeconds ≤ d.toSeconds ∧
        ∀ u, (none : Option DateTime) = some u → d.toSeconds ≤ u.toSeconds :=
  C3_amended_filter dtSince none [⟨200, [issueNoLabels]⟩] [issueNoLabels] 2
    (by decide) (by rfl) issueNoLabels (by simp)

/-- C2 (counterexample): a closed-state record whose closing timestamp is
the non-empty string `"garbage"` makes `strptime` raise, so the whole
fetch aborts (`none`) instead of dropping the record and continuing. -/
theorem C2_counterexample :
    get_closed_issues dtSince none [⟨200, [issueBadStamp]⟩] = none := by rfl

/-- C2 (amended): a record whose closing timestamp is missing (`None` /
absent / the empty string) is silently dropped — whenever no record makes
`strptime` raise, the fetch returns normally, and every returned issue
has a non-empty closing-timestamp string; a non-empty malformed timestamp
instead raises and abandons the batch (see the counterexample). -/
theorem C2_amended_drop (since : DateTime) (untl : Option DateTime)
    (pages : List PageResponse) (hwf : ∀ p ∈ pages, pageWellFormed p) :
    (get_closed_issues since untl pages).isSome = true ∧
    ∀ res m, get_closed_issues since untl pages = some (res, m) →
      ∀ i ∈ res, ∃ s, i.closed_at = some s ∧ s ≠ "" := by
  refine ⟨fetchLoop_total since untl pages [] 0 hwf, ?_⟩
  intro res m h i hi
  rcases fetchLoop_mem since untl pages [] 0 res m h i hi with
    hacc | ⟨hfr, p, hp, hmem⟩
  · simp at hacc
  · obtain ⟨_, _, s, d, hs, hse, _⟩ := filterRecord_accept since untl i i hfr
    exact ⟨s, hs, hse⟩

/-- Witness for `C2_amended_drop`: a page holding a record with a missing
closing timestamp next to a valid one is processed without raising, and
only the valid record survives. -/
theorem C2_amended_drop_witness :
    (get_closed_issues dtSince none [⟨200, [issueNoStamp, issueNoLabels]⟩]).isSome
        = true ∧
      ∃ s, issueNoLabels.closed_at = some s ∧ s ≠ "" := by
  have hwf : ∀ p ∈ [(⟨200, [issueNoStamp, issueNoLabels]⟩ : PageResponse)],
      pageWellFormed p := by
    intro p hp
    simp only [List.mem_singleton] at hp
    subst hp
    constructor
    · intro r hr
      simp only [List.mem_cons, List.mem_singleton] at hr
      rcases hr with hr | hr | hr
      · subst hr; exact Or.inr (Or.inl rfl)
      · subst hr
        exact Or.inr (Or.inr (Or.inr
          ⟨"2024-01-02T00:00:00Z", ⟨2024, 1, 2, 0, 0, 0⟩, rfl, by rfl⟩))
      · cases hr
    · intro last hlast
      simp only [List.getLast?] at hlast
      injection hlast with h2
      subst h2
      exact Or.inr (Or.inr
        ⟨"2024-01-02T00:00:00Z", ⟨2024, 1, 2, 0, 0, 0⟩, rfl, by rfl⟩)
  exact ⟨(C2_amended_drop dtSince none _ hwf).1,
    (C2_amended_drop dtSince none _ hwf).2 [issueNoLabels] 2 (by rfl)
      issueNoLabels (by simp)⟩

/-- C4 (confirmed): when the pages before `pk` are passed through without
stopping and `pk` is the first page whose last record has a (parseable)
closing timestamp strictly before `since`, the loop consumes exactly
`pk` and issues no page request afterwards: `pre.length + 1` requests in
total, with the accepted records of `pk` still included. -/
theorem C4_early_termination (since : DateTime) (untl : Option DateTime)
    (pre : List PageResponse) (pk : PageResponse) (rest : List PageResponse)
    (hpre : ∀ p ∈ pre, contPage since untl p)
    (h200 : pk.status = 200) (hne : pk.body ≠ [])
    (hfp : (filterPage since untl pk.body).isSome = true)
    (hstop : stopAfterPage since pk.body = some true) :
    get_closed_issues since untl (pre ++ pk :: rest) =
      some (pre.flatMap (fun p => acceptedOf since untl p) ++
        acceptedOf since untl pk, pre.length + 1) := by
  rw [get_closed_issues, fetchLoop_append_cont since untl pre (pk :: rest) [] 0 hpre]
  cases hf : filterPage since untl pk.body with
  | none => rw [hf] at hfp; simp at hfp
  | some accepted =>
    have hacc : acceptedOf since untl pk = accepted := by simp [acceptedOf, hf]
    simp only [fetchLoop]
    rw [if_neg (fun hc => hc h200),
      if_neg (fun hc => hne (List.isEmpty_iff.mp hc)), hf, hstop, hacc]
    simp

/-- Witness for `C4_early_termination`: page 2 ends with a record closed
before `since`, so the run stops after 2 requests and never asks for
page 3. -/
theorem C4_early_termination_witness :
    get_closed_issues dtSince none
        ([⟨200, [issueNoLabels]⟩] ++ (⟨200, [issueOld]⟩ : PageResponse) ::
          [⟨200, [issueLabelled]⟩]) =
      some ([issueNoLabels], 2) := by
  have h := C4_early_termination dtSince none [⟨200, [issueNoLabels]⟩]
    ⟨200, [issueOld]⟩ [⟨200, [issueLabelled]⟩]
    (by
      intro p hp
      simp only [List.mem_singleton] at hp
      subst hp
      exact ⟨rfl, by simp, by rfl, by rfl⟩)
    rfl (by simp) (by rfl) (by rfl)
  rw [h]
  rfl

/-- C5 (confirmed): when the pages before `pk` are passed through without
stopping and `pk` answers with a non-success status, the loop issues no
further request and returns exactly the issues accepted from the earlier
pages — a partial result, not an exception or an empty result. -/
theorem C5_partial_result (since : DateTime) (untl : Option DateTime)
    (pre : List PageResponse) (pk : PageResponse) (rest : List PageResponse)
    (hpre : ∀ p ∈ pre, contPage since untl p) (hbad : pk.status ≠ 200) :
    get_closed_issues since untl (pre ++ pk :: rest) =
      some (pre.flatMap (fun p => acceptedOf since untl p), pre.length + 1) := by
  rw [get_closed_issues, fetchLoop_append_cont since untl pre (pk :: rest) [] 0 hpre]
  simp only [fetchLoop]
  rw [if_pos hbad]
  simp

/-- Witness for `C5_partial_result`: a 500 on page 2 keeps the one issue
accepted from page 1 and stops after 2 requests. -/
theorem C5_partial_result_witness :
    get_closed_issues dtSince none
        ([⟨200, [issueNoLabels]⟩] ++ (⟨500, [issueLabelled]⟩ : PageResponse) ::
          [⟨200, [issueLabelled]⟩]) =
      some ([issueNoLabels], 2) := by
  have h := C5_partial_result dtSince none [⟨200, [issueNoLabels]⟩]
    ⟨500, [issueLabelled]⟩ [⟨200, [issueLabelled]⟩]
    (by
      intro p hp
      simp only [List.mem_singleton] at hp
      subst hp
      exact ⟨rfl, by simp, by rfl, by rfl⟩)
    (by decide)
  rw [h]
  rfl

/-- C9 (confirmed): when the last record of a non-empty page has a falsy
closing timestamp, the early-termination comparison is skipped and the
loop continues with the next page — whatever the dates of the page's
records — so at least one more request is issued; only an empty page or a
non-success status can then stop the loop. -/
theorem C9_no_stop_without_stamp (since : DateTime) (untl : Option DateTime)
    (p : PageResponse) (rest : List PageResponse)
    (h200 : p.status = 200) (hne : p.body ≠ [])
    (hfp : (filterPage since untl p.body).isSome = true)
    (last : RawIssue) (hlast : p.body.getLast? = some last)
    (hfalsy : last.closed_at = none ∨ last.closed_at = some "") :
    get_closed_issues since untl (p :: rest) =
      fetchLoop since untl rest (acceptedOf since untl p) 1 ∧
    ∀ res m, get_closed_issues since untl (p :: rest) = some (res, m) → 2 ≤ m := by
  have hstop : stopAfterPage since p.body = some false := by
    unfold stopAfterPage
    rw [hlast]
    simp only []
    rcases hfalsy with h1 | h1
    · simp [h1]
    · simp [h1]
  have hcont : contPage since untl p := ⟨h200, hne, hfp, hstop⟩
  constructor
  · have h2 := fetchLoop_cont since untl p rest [] 0 hcont
    simpa [get_closed_issues] using h2
  · intro res m h
    rw [get_closed_issues, fetchLoop_cont since untl p rest [] 0 hcont] at h
    have h3 := fetchLoop_reqs_lb since untl rest _ 1 res m h
    omega

/-- Witness for `C9_no_stop_without_stamp`: every record of page 1 closes
before `since` (or not at all), yet because the last record has no
closing timestamp the loop requests page 2 — the run makes 3 requests. -/
theorem C9_no_stop_without_stamp_witness :
    get_closed_issues dtSince none
        ((⟨200, [issueOld, issueNoStamp]⟩ : PageResponse) ::
          [⟨200, [issueNoLabels]⟩]) =
      fetchLoop dtSince none [⟨200, [issueNoLabels]⟩]
        (acceptedOf dtSince none ⟨200, [issueOld, issueNoStamp]⟩) 1 ∧
      2 ≤ 3 := by
  have h := C9_no_stop_without_stamp dtSince none ⟨200, [issueOld, issueNoStamp]⟩
    [⟨200, [issueNoLabels]⟩] rfl (by simp) (by rfl) issueNoStamp (by rfl)
    (Or.inl rfl)
  exact ⟨h.1, h.2 [issueNoLabels] 3 (by rfl)⟩

/-! ### Claim theorems: the aggregation -/

lemma mapO_length {α β : Type} (f : α → Option β) :
    ∀ (l : List α) (bs : List β), mapO f l = some bs → bs.length = l.length
  | [], bs, h => by
    simp only [mapO] at h
    injection h with h2
    subst h2
    rfl
  | a :: l, bs, h => by
    simp only [mapO] at h
    cases hf : f a with
    | none => rw [hf] at h; simp at h
    | some b =>
      rw [hf] at h
      cases hr : mapO f l with
      | none => rw [hr] at h; simp at h
      | some bs2 =>
        rw [hr] at h
        simp only [] at h
        injection h with h2
        subst h2
        simp [mapO_length f l bs2 hr]

lemma length_le_assignee_sum :
    ∀ issues : List RawIssue, issues.length ≤
      (issues.map (fun i => if i.assignees.isEmpty then 1 else i.assignees.length)).sum
  | [] => by simp
  | i :: rest => by
    simp only [List.map_cons, List.sum_cons, List.length_cons]
    have h1 : 1 ≤ if i.assignees.isEmpty then 1 else i.assignees.length := by
      by_cases ha : i.assignees.isEmpty
      · simp [ha]
      · rw [if_neg ha]
        have hne : i.assignees ≠ [] := fun hc => ha (by simp [hc])
        exact List.length_pos.mpr hne
    have h2 := length_le_assignee_sum rest
    omega

lemma analyze_issues_eq (issues : List RawIssue) (a : AnalysisResult)
    (h : analyze_issues issues = some a) :
    ∃ st, analyzeLoop initState issues = some st ∧
      a.total_count = issues.length ∧
      a.by_label = st.by_label ∧
      a.by_assignee = st.by_assignee ∧
      a.by_author = st.by_author ∧
      a.by_month = st.by_month ∧
      a.by_week = st.by_week ∧
      a.labels_combinations = st.labels_combinations ∧
      a.avg_days_to_close =
        (if 0 < issues.length then
          pyRound2 ((st.total_days : ℚ) / (issues.length : ℚ))
        else 0) ∧
      a.issues_detail = st.details := by
  unfold analyze_issues at h
  cases hl : analyzeLoop initState issues with
  | none => rw [hl] at h; cases h
  | some st =>
    rw [hl] at h
    simp only [] at h
    injection h with h2
    subst h2
    exact ⟨st, rfl, rfl, rfl, rfl, rfl, rfl, rfl, rfl, rfl, rfl⟩

lemma lookupCount_foldl_incr {K : Type} [DecidableEq K] :
    ∀ (l : List K) (m : List (K × Nat)) (s : K),
      lookupCount (l.foldl incr m) s = lookupCount m s + l.count s
  | [], m, s => by simp
  | k :: l, m, s => by
    simp only [List.foldl_cons]
    rw [lookupCount_foldl_incr l (incr m k) s, lookupCount_incr, List.count_cons]
    rcases eq_or_ne s k with h | h
    · subst h
      simp only [if_pos rfl, beq_self_eq_true, if_true]
      omega
    · have h1 : (s == k) = false := beq_eq_false_iff_ne.mpr h
      have h2 : (k == s) = false := beq_eq_false_iff_ne.mpr (Ne.symm h)
      simp only [if_neg h, h1, h2, Bool.false_eq_true, if_false]
      omega

/-- The per-bucket contribution of one issue to `by_assignee`: one unit per
assignee login, or one unit to `"unassigned"` when it has none. -/
def assigneeContrib (i : RawIssue) (s : String) : Nat :=
  if i.assignees.isEmpty then (if s = "unassigned" then 1 else 0)
  else i.assignees.count s

lemma processIssue_assignee_key (st st' : AState) (i : RawIssue)
    (h : processIssue st i = some st') (s : String) :
    lookupCount st'.by_assignee s =
      lookupCount st.by_assignee s + assigneeContrib i s := by
  unfold processIssue at h
  cases hzs : i.closed_at with
  | none => rw [hzs] at h; cases h
  | some zs =>
    rw [hzs] at h
    simp only [] at h
    cases hc : strptime i.created_at with
    | none =>
      rw [hc] at h
      cases hz : strptime zs with
      | none => rw [hz] at h; simp at h
      | some z => rw [hz] at h; simp at h
    | some c =>
      rw [hc] at h
      cases hz : strptime zs with
      | none => rw [hz] at h; simp at h
      | some z =>
        rw [hz] at h
        simp only [] at h
        injection h with h2
        subst h2
        by_cases ha : i.assignees.isEmpty
        · by_cases hs : s = "unassigned"
          · subst hs
            simp [assigneeContrib, ha, lookupCount_incr]
          · have h2 : ¬s = "unassigned" := hs
            simp [assigneeContrib, ha, lookupCount_incr, h2]
        · simp [assigneeContrib, ha, lookupCount_foldl_incr]

lemma analyzeLoop_assignee_key :
    ∀ (issues : List RawIssue) (st st' : AState),
      analyzeLoop st issues = some st' → ∀ s,
        lookupCount st'.by_assignee s = lookupCount st.by_assignee s +
          (issues.map (fun i => assigneeContrib i s)).sum
  | [], st, st', h, s => by
    simp only [analyzeLoop] at h
    injection h with h2
    subst h2
    simp
  | i :: rest, st, st', h, s => by
    simp only [analyzeLoop] at h
    cases hp : processIssue st i with
    | none => rw [hp] at h; cases h
    | some st2 =>
      rw [hp] at h
      simp only [] at h
      rw [analyzeLoop_assignee_key rest st2 st' h s,
        processIssue_assignee_key st st2 i hp s]
      simp only [List.map_cons, List.sum_cons]
      omega

/-- C7 (confirmed): `total_count` is the input length; `by_author` gains
exactly one unit per issue in the author's bucket, so its values sum to
`total_count`; `by_assignee` gains one unit per assignee login (or one in
`"unassigned"` when the issue has none), so its values sum to at least one
unit per issue. -/
theorem C7_author_assignee_totals (issues : List RawIssue) (a : AnalysisResult)
    (h : analyze_issues issues = some a) :
    a.total_count = issues.length ∧
    sumVals a.by_author = issues.length ∧
    (∀ s, lookupCount a.by_author s =
      (issues.filter (fun i => i.user_login = s)).length) ∧
    sumVals a.by_assignee =
      (issues.map (fun i => if i.assignees.isEmpty then 1 else i.assignees.length)).sum ∧
    (∀ s, lookupCount a.by_assignee s =
      (issues.map (fun i => assigneeContrib i s)).sum) ∧
    issues.length ≤ sumVals a.by_assignee := by
  obtain ⟨st, hl, htc, _, hassign, hauthor, _, _, _, _, _⟩ :=
    analyze_issues_eq issues a h
  obtain ⟨ds, dets, _, _, _, _, hau, haus, _, _, has, _, _⟩ :=
    analyzeLoop_spec issues initState st hl
  refine ⟨htc, ?_, ?_, ?_, ?_, ?_⟩
  · rw [hauthor, hau]
    simp [initState, sumVals]
  · intro s
    rw [hauthor, haus s]
    simp [initState, lookupCount]
  · rw [hassign, has]
    simp [initState, sumVals]
  · intro s
    rw [hassign, analyzeLoop_assignee_key issues initState st hl s]
    simp [initState, lookupCount]
  · rw [hassign, has]
    have h2 := length_le_assignee_sum issues
    simp only [initState, sumVals, List.map_nil, List.sum_nil]
    omega

/-- Witness for `C7_author_assignee_totals` on a concrete two-issue run. -/
theorem C7_author_assignee_totals_witness :
    aPair.total_count = 2 ∧ sumVals aPair.by_author = 2 ∧
      lookupCount aPair.by_author "alice" = 1 ∧
      lookupCount aPair.by_assignee "unassigned" = 1 ∧
      2 ≤ sumVals aPair.by_assignee := by
  obtain ⟨h1, h2, h3, _, h5, h6⟩ := C7_author_assignee_totals
    [issueNoLabels, issueLabelled] aPair (by rfl)
  exact ⟨h1.trans (by rfl), h2.trans (by rfl), (h3 "alice").trans (by rfl),
    (h5 "unassigned").trans (by rfl), h6⟩

/-- C10 (confirmed): the values of `by_month` and of `by_week` both sum to
`total_count` (each issue lands in exactly one month bucket and one week
bucket derived from its closing timestamp), and `issues_detail` holds
exactly one entry per input issue, in input order. -/
theorem C10_month_week_detail (issues : List RawIssue) (a : AnalysisResult)
    (h : analyze_issues issues = some a) :
    sumVals a.by_month = a.total_count ∧
    sumVals a.by_week = a.total_count ∧
    a.total_count = issues.length ∧
    a.issues_detail.length = issues.length ∧
    mapO mkDetail issues = some a.issues_detail := by
  obtain ⟨st, hl, htc, _, _, _, hmonth, hweek, _, _, hdetail⟩ :=
    analyze_issues_eq issues a h
  obtain ⟨ds, dets, _, hdets, hdets2, _, _, _, hmo, hwe, _, _, _⟩ :=
    analyzeLoop_spec issues initState st hl
  have hdeq : a.issues_detail = dets := by
    rw [hdetail, hdets2]
    simp [initState]
  refine ⟨?_, ?_, htc, ?_, ?_⟩
  · rw [hmonth, hmo, htc]
    simp [initState, sumVals]
  · rw [hweek, hwe, htc]
    simp [initState, sumVals]
  · rw [hdeq, mapO_length mkDetail issues dets hdets]
  · rw [hdeq]
    exact hdets

/-- Witness for `C10_month_week_detail` on a concrete two-issue run. -/
theorem C10_month_week_detail_witness :
    sumVals aPair.by_month = aPair.total_count ∧
      sumVals aPair.by_week = aPair.total_count ∧
      aPair.issues_detail.length = 2 := by
  obtain ⟨h1, h2, _, h4, _⟩ := C10_month_week_detail
    [issueNoLabels, issueLabelled] aPair (by rfl)
  exact ⟨h1, h2, h4.trans (by rfl)⟩

/-- C1 (counterexample): an issue with no labels contributes nothing to
`labels_combinations` — there is no empty-tuple bucket — so the values do
not sum to the input length. -/
theorem C1_counterexample :
    (analyze_issues [issueNoLabels]).map
        (fun a => (sumVals a.labels_combinations, a.total_count)) =
      some (0, 1) := by rfl

/-- C1 (amended): every issue with a non-empty label set increments
`labels_combinations` under the sorted tuple of its labels; issues with no
labels contribute nothing, so the values sum to the number of issues with
at least one label (not to the input length). -/
theorem C1_labels_combinations (issues : List RawIssue) (a : AnalysisResult)
    (h : analyze_issues issues = some a) :
    sumVals a.labels_combinations =
      (issues.filter (fun i => !i.labels.isEmpty)).length ∧
    ∀ key, lookupCount a.labels_combinations key =
      (issues.filter
        (fun i => !i.labels.isEmpty && sortStrings i.labels == key)).length := by
  obtain ⟨st, hl, _, _, _, _, _, _, hcombo, _, _⟩ := analyze_issues_eq issues a h
  obtain ⟨ds, dets, _, _, _, _, _, _, _, _, _, hlc, hlcs⟩ :=
    analyzeLoop_spec issues initState st hl
  constructor
  · rw [hcombo, hlc]
    simp [initState, sumVals]
  · intro key
    rw [hcombo, hlcs key]
    simp [initState, lookupCount]

/-- Witness for `C1_labels_combinations`: of the two issues only the
labelled one is counted, under its sorted label tuple. -/
theorem C1_labels_combinations_witness :
    sumVals aPair.labels_combinations = 1 ∧
      lookupCount aPair.labels_combinations ["bug", "ui"] = 1 := by
  obtain ⟨h1, h2⟩ := C1_labels_combinations [issueNoLabels, issueLabelled]
    aPair (by rfl)
  exact ⟨h1.trans (by rfl), (h2 ["bug", "ui"]).trans (by rfl)⟩

/-- C6 (confirmed): `avg_days_to_close` is the 2-decimal rounding of the
mean of the per-issue whole-day-truncated differences, and `0` for an
empty input; a closure 23 hours after creation counts as 0 days. -/
theorem C6_avg_days (issues : List RawIssue) (a : AnalysisResult)
    (h : analyze_issues issues = some a) :
    (∃ ds, mapO issueDays issues = some ds ∧
      a.avg_days_to_close =
        (if 0 < issues.length then
          pyRound2 ((ds.sum : ℚ) / (issues.length : ℚ))
        else 0)) ∧
    daysBetween ⟨2024, 1, 1, 0, 0, 0⟩ ⟨2024, 1, 1, 23, 0, 0⟩ = 0 := by
  obtain ⟨st, hl, _, _, _, _, _, _, _, havg, _⟩ := analyze_issues_eq issues a h
  obtain ⟨ds, dets, hds, _, _, htd, _, _, _, _, _, _, _⟩ :=
    analyzeLoop_spec issues initState st hl
  refine ⟨⟨ds, hds, ?_⟩, by decide⟩
  rw [havg, htd]
  simp [initState]

/-- Witness for `C6_avg_days`: days 1 and 3 average to 2. -/
theorem C6_avg_days_witness :
    aPair.avg_days_to_close = 2 ∧
      daysBetween ⟨2024, 1, 1, 0, 0, 0⟩ ⟨2024, 1, 1, 23, 0, 0⟩ = 0 := by
  obtain ⟨⟨ds, hds, havg⟩, h23⟩ := C6_avg_days [issueNoLabels, issueLabelled]
    aPair (by rfl)
  refine ⟨?_, h23⟩
  have h2 : mapO issueDays [issueNoLabels, issueLabelled] = some [1, 3] := by rfl
  have h3 : ds = [1, 3] := by
    have h4 := hds.symm.trans h2
    injection h4
  rw [havg, h3]
  rw [if_pos (by simp)]
  have h4 : ((([1, 3] : List ℤ).sum : ℚ) /
      (([issueNoLabels, issueLabelled].length : Nat) : ℚ)) = 2 := by
    norm_num
  rw [h4]
  rw [show pyRound2 2 = 2 from by norm_num [pyRound2, roundHalfEven]]

/-! ### Claim theorem: the renderers -/

/-- C8 (code bug): the CSV renderer does flatten `assignees` and `labels`
with the literal separator `"; "` (`["alice", "bob"]` becomes
`"alice; bob"`); but the JSON renderer only preserves `issues_detail`
when `json.dump` succeeds, and `json.dump` raises `TypeError` on the
tuple keys of `labels_combinations` — so for any analysis with at least
one labelled issue (here the concrete `aPair`) the JSON report is never
written.  With an empty combination map the document is produced and the
`issues` section is the untouched `issues_detail` list. -/
theorem C8_csv_join_json_typeerror :
    (∀ d : IssueDetail,
      (csvRowOf d).assignees = String.intercalate "; " d.assignees ∧
      (csvRowOf d).labels = String.intercalate "; " d.labels) ∧
    (export_csv_rows aPair).map (fun r => r.assignees) = ["", "alice; bob"] ∧
    export_json_report aPair =
      .error "TypeError: keys must be str, int, float, bool or None, not tuple" ∧
    export_json_report aEmptyCombos =
      .ok ⟨aEmptyCombos.total_count, aEmptyCombos.avg_days_to_close,
        aEmptyCombos.by_label, aEmptyCombos.by_assignee, aEmptyCombos.by_author,
        aEmptyCombos.by_month, aEmptyCombos.by_week,
        aEmptyCombos.labels_combinations, aEmptyCombos.issues_detail⟩ :=
  ⟨fun d => ⟨rfl, rfl⟩, by rfl, by rfl, by rfl⟩
